import Mathlib

/-!
Verification development for `parlai/agents/rag/retrieve_api.py`.

The Python module is shallowly embedded: network effects (the external
search provider `googlesearch.search`, the HTTP client `requests`, the
HTML parser `bs4` and the renderer `html2text`) are oracles collected in
a `Net` record, Python exceptions are modelled with `Except PyError`,
and the observable external calls of a run are recorded in a trace of
`TraceEv` events.  Pure library behaviour that the module's contract
depends on (CPython's `str.strip`, `str.split('\n')`, `str.replace`,
`str.startswith`, and `bytes.decode("utf-8", ...)`) is modelled by
executable Lean functions over `List Char` / `List Nat`.
-/

set_option maxHeartbeats 1000000

deriving instance DecidableEq for Except

namespace RetrieveApi

/-- Whitespace characters recognised by CPython's `str.strip()` (ASCII range). -/
def isPySpace (c : Char) : Bool :=
  c == ' ' || c == '\t' || c == '\n' || c == '\r' || c == '\x0b' || c == '\x0c'

/-- Model of CPython's `str.strip()` on a list of characters: drop whitespace
from the front, then from the back. -/
def stripChars (l : List Char) : List Char :=
  ((l.dropWhile isPySpace).reverse.dropWhile isPySpace).reverse

/-- Model of CPython's `str.strip()` (used at line 218 of the source). -/
def pyStrip (s : String) : String :=
  String.mk (stripChars s.data)

/-- Model of CPython's `str.split(sep)` for a one-character separator: split at
every occurrence of the separator, keeping empty pieces. -/
def splitOnChar (c : Char) : List Char → List (List Char)
  | [] => [[]]
  | a :: rest =>
    match splitOnChar c rest with
    | [] => if a == c then [[], []] else [[a]]
    | h :: t => if a == c then [] :: h :: t else (a :: h) :: t

/-- Model of CPython's `str.split('\n')` (used at line 218 of the source). -/
def splitNL (s : String) : List String :=
  (splitOnChar '\n' s.data).map String.mk

/-- Model of CPython's UTF-8 codec, processing the byte `b` as the start of a
sequence with the remaining input `bs`.  Each decoded scalar value yields
`some c`; each maximal invalid subpart yields one `none` error marker, after
which decoding resumes at the offending byte (CPython's behaviour).
Continuation-byte ranges follow CPython, including the restricted second-byte
ranges after the leads `E0`, `ED`, `F0` and `F4`. -/
def decodeFrom (b : Nat) (bs : List Nat) : List (Option Char) :=
    if b < 0x80 then
      some (Char.ofNat b) ::
        (match bs with
         | [] => []
         | b2 :: bs2 => decodeFrom b2 bs2)
    else if 0xC2 ≤ b ∧ b ≤ 0xDF then
      match bs with
      | [] => [none]
      | b2 :: bs2 =>
        if 0x80 ≤ b2 ∧ b2 ≤ 0xBF then
          some (Char.ofNat ((b - 0xC0) * 0x40 + (b2 - 0x80))) ::
            (match bs2 with
             | [] => []
             | b3 :: bs3 => decodeFrom b3 bs3)
        else none :: decodeFrom b2 bs2
    else if 0xE0 ≤ b ∧ b ≤ 0xEF then
      match bs with
      | [] => [none]
      | b2 :: bs2 =>
        if (if b = 0xE0 then 0xA0 else 0x80) ≤ b2 ∧ b2 ≤ (if b = 0xED then 0x9F else 0xBF) then
          match bs2 with
          | [] => [none]
          | b3 :: bs3 =>
            if 0x80 ≤ b3 ∧ b3 ≤ 0xBF then
              some (Char.ofNat ((b - 0xE0) * 0x1000 + (b2 - 0x80) * 0x40 + (b3 - 0x80))) ::
                (match bs3 with
                 | [] => []
                 | b4 :: bs4 => decodeFrom b4 bs4)
            else none :: decodeFrom b3 bs3
        else none :: decodeFrom b2 bs2
    else if 0xF0 ≤ b ∧ b ≤ 0xF4 then
      match bs with
      | [] => [none]
      | b2 :: bs2 =>
        if (if b = 0xF0 then 0x90 else 0x80) ≤ b2 ∧ b2 ≤ (if b = 0xF4 then 0x8F else 0xBF) then
          match bs2 with
          | [] => [none]
          | b3 :: bs3 =>
            if 0x80 ≤ b3 ∧ b3 ≤ 0xBF then
              match bs3 with
              | [] => [none]
              | b4 :: bs4 =>
                if 0x80 ≤ b4 ∧ b4 ≤ 0xBF then
                  some (Char.ofNat
                      ((b - 0xF0) * 0x40000 + (b2 - 0x80) * 0x1000 +
                        (b3 - 0x80) * 0x40 + (b4 - 0x80))) ::
                    (match bs4 with
                     | [] => []
                     | b5 :: bs5 => decodeFrom b5 bs5)
                else none :: decodeFrom b4 bs4
            else none :: decodeFrom b3 bs3
        else none :: decodeFrom b2 bs2
    else
      none ::
        (match bs with
         | [] => []
         | b2 :: bs2 => decodeFrom b2 bs2)

/-- Model of CPython's UTF-8 codec on a whole byte list. -/
def utf8Decode : List Nat → List (Option Char)
  | [] => []
  | b :: bs => decodeFrom b bs

/-- Standard UTF-8 encoding of one scalar value. -/
def utf8EncodeChar (c : Char) : List Nat :=
  let n := c.toNat
  if n < 0x80 then [n]
  else if n < 0x800 then [0xC0 + n / 0x40, 0x80 + n % 0x40]
  else if n < 0x10000 then
    [0xE0 + n / 0x1000, 0x80 + (n / 0x40) % 0x40, 0x80 + n % 0x40]
  else
    [0xF0 + n / 0x40000, 0x80 + (n / 0x1000) % 0x40, 0x80 + (n / 0x40) % 0x40,
      0x80 + n % 0x40]

/-- UTF-8 encoding of a character list. -/
def encodeChars : List Char → List Nat
  | [] => []
  | c :: cs => utf8EncodeChar c ++ encodeChars cs

/-- Model of CPython's `str.encode("utf-8")`. -/
def pyEncodeUtf8 (s : String) : List Nat := encodeChars s.data

/-- Model of the source's `page.decode("utf-8", errors="ignore")` (line 154):
undecodable subparts are dropped from the output. -/
def pyDecodeUtf8Ignore (bs : List Nat) : String :=
  String.mk ((utf8Decode bs).filterMap id)

/-- Modelled from the spec: "Decode bytes as UTF-8, replacing undecodable
sequences rather than failing", i.e. CPython's `errors="replace"` behaviour,
which substitutes U+FFFD for each undecodable subpart. -/
def specDecodeReplace (bs : List Nat) : String :=
  String.mk ((utf8Decode bs).map (fun o => o.getD (Char.ofNat 0xFFFD)))

/-- Model of Python's `str.startswith` (used in `_validate_server`). -/
def startswith (s p : String) : Bool := p.data.isPrefixOf s.data

/-- Characters kept by `.replace("\n", "").replace("\r", "")` (line 143). -/
def charKept (c : Char) : Bool := !(c == '\n') && !(c == '\r')

/-- Model of `title.replace("\n", "").replace("\r", "")` from line 143: for
single-character patterns replaced by the empty string this is exactly the
removal of every occurrence of those characters. -/
def stripNewlines (s : String) : String := String.mk (s.data.filter charKept)

/-- Python exceptions that the embedded code can raise. -/
inductive PyError where
  | requestsException : PyError
  | keyError : PyError
  | valueError : PyError
deriving DecidableEq

/-- Value stored under the `content` key of a document dict.  The search
backend stores a list of sentence strings (line 221) while the mock backend
stores one formatted string (line 84), so the field is a sum. -/
inductive ContentVal where
  | str : String → ContentVal
  | strList : List String → ContentVal
deriving DecidableEq

/-- A document dict, as built by `create_content_dict`: the `content` entry
plus the `url` and `title` keyword entries. -/
structure Doc where
  content : ContentVal
  url : String
  title : String
deriving DecidableEq

/-- An item of a search-server response: a JSON-like dict whose `url`, `title`
and `content` keys may each be absent (`none`). -/
structure RespItem where
  url : Option String
  title : Option String
  content : Option String
deriving DecidableEq

/-- Observable external calls made during a run. -/
inductive TraceEv where
  | providerCall : String → Nat → TraceEv
  | fetchCall : String → TraceEv
  | remotePost : String → String → Nat → TraceEv
deriving DecidableEq

/-- Oracles for the external collaborators of the module:
`search` is `googlesearch.search(query, num=n, stop=n)`;
`requestsGet url i` is the result of the `i`-th `requests.get(url)` call made
inside `_get_and_parse` (`none` means the call raises);
`soupTitle` is `BeautifulSoup(page).find("title")` followed by
`renderContents().decode()` (`none` means no title element);
`html2textHandle` is the configured `html2text.HTML2Text().handle`;
`postServer addr q n` is the status code and parsed `response` field of
`requests.post(addr, data={q, n})`. -/
structure Net where
  search : String → Nat → List String
  requestsGet : String → Nat → Option (List Nat)
  soupTitle : List Nat → Option String
  html2textHandle : String → String
  postServer : String → String → Nat → Nat × Option (List RespItem)

/-- Construction-time state of a `SearchEngineRetriever`: the skip token, the
validated server address, and the `use_local` flag. -/
structure Config where
  skipToken : String
  serverAddress : String
  useLocal : Bool
deriving DecidableEq

/-- Embedding of `SearchEngineRetriever._get_and_parse` (lines 121-168).  The
first `requests.get(url)` (line 123) sits outside the `try` block, so its
failure is an uncaught exception; only the second call (line 125) is guarded
and turns a failure into the `None` marker.  On success the title is rendered
(placeholder `"None"` when absent) and stripped of newlines, and the body is
decoded with `errors="ignore"` and rendered by html2text. -/
def get_and_parse (net : Net) (url : String) : Except PyError (Option RespItem) :=
  match net.requestsGet url 0 with
  | none => Except.error PyError.requestsException
  | some _ =>
    match net.requestsGet url 1 with
    | none => Except.ok none
    | some page =>
      let title0 :=
        match net.soupTitle page with
        | some t => t
        | none => "None"
      let title := stripNewlines title0
      let content := net.html2textHandle (pyDecodeUtf8Ignore page)
      Except.ok (some { url := some url, title := some title, content := some content })

/-- Successful fetch-and-parse outcome of a url, as a total function:
`some item` exactly when `_get_and_parse` returns a (truthy) dict. -/
def fetchSuccess (net : Net) (url : String) : Option RespItem :=
  match get_and_parse net url with
  | Except.ok (some d) => some d
  | _ => none

/-- Embedding of the `for url in urls` loop of `_query_local_search_server`
(lines 174-179): stop before fetching once the accumulated count reaches `n`,
fetch and parse each remaining url, append only truthy results, and let an
exception from `_get_and_parse` propagate. -/
def queryLoop (net : Net) (n : Nat) :
    List String → List RespItem → Except PyError (List RespItem) × List TraceEv
  | [], acc => (Except.ok acc, [])
  | url :: rest, acc =>
    if n ≤ acc.length then (Except.ok acc, [])
    else
      match get_and_parse net url with
      | Except.error e => (Except.error e, [TraceEv.fetchCall url])
      | Except.ok none =>
        let r := queryLoop net n rest acc
        (r.1, TraceEv.fetchCall url :: r.2)
      | Except.ok (some d) =>
        let r := queryLoop net n rest (acc ++ [d])
        (r.1, TraceEv.fetchCall url :: r.2)

/-- Embedding of `SearchEngineRetriever._query_local_search_server`
(lines 171-183): ask the provider for urls, run the fetch loop, truncate to
`n`, and return the `response` entry of the wrapper dict (always present). -/
def query_local_search_server (net : Net) (q : String) (n : Nat) :
    Except PyError (List RespItem) × List TraceEv :=
  let urls := net.search q n
  let r := queryLoop net n urls []
  (Except.map (fun content => content.take n) r.1, TraceEv.providerCall q n :: r.2)

/-- Embedding of `SearchEngineRetriever._query_search_server` (lines 109-119):
POST to the configured address; on status 200 return the `response` field of
the JSON body, otherwise log and implicitly return `None`. -/
def query_search_server (net : Net) (addr q : String) (n : Nat) :
    Option (List RespItem) × List TraceEv :=
  let resp := net.postServer addr q n
  (if resp.1 = 200 then resp.2 else none, [TraceEv.remotePost addr q n])

/-- Embedding of `RetrieverAPI.create_content_dict` (lines 62-65): a dict of
the `content` value plus the `url` and `title` keyword arguments. -/
def create_content_dict (content : ContentVal) (url : String) (title : String) : Doc :=
  { content := content, url := url, title := title }

/-- Filter-and-strip of one piece from `rd[CONTENT].split('\n')` (line 218):
keep `s.strip()` when `s` and `s.strip()` are both truthy. -/
def keepSentence (s : String) : Option String :=
  if s ≠ "" ∧ pyStrip s ≠ "" then some (pyStrip s) else none

/-- Embedding of the sentence list of line 218:
`[s.strip() for s in rd[CONTENT].split('\n') if s and s.strip()]`. -/
def splitSentences (c : String) : List String :=
  (splitNL c).filterMap keepSentence

/-- Document built from one response item in the loop of lines 215-222, given
the value found under its `content` key. -/
def docOfItem (rd : RespItem) (c : String) : Doc :=
  create_content_dict (ContentVal.strList (splitSentences c)) (rd.url.getD "")
    (rd.title.getD "")

/-- Embedding of the assembly loop of `_retrieve_single` (lines 215-222):
`rd.get('url', '')` and `rd.get('title', '')` default to the empty string,
while `rd[CONTENT]` raises `KeyError` when the key is absent. -/
def buildRetrievedDocs : List RespItem → Except PyError (List Doc)
  | [] => Except.ok []
  | rd :: rest =>
    match rd.content with
    | none => Except.error PyError.keyError
    | some c => Except.map (fun ds => docOfItem rd c :: ds) (buildRetrievedDocs rest)

/-- Truthiness of `search_server_resp` at line 208: `None` and the empty list
are falsy. -/
def respFalsy : Option (List RespItem) → Bool
  | none => true
  | some l => l.isEmpty

/-- Embedding of the tail of `_retrieve_single` (lines 208-223): a falsy
server response yields the empty document list, otherwise the documents are
assembled from the response items. -/
def finishResp (resp : Option (List RespItem)) : Except PyError (Option (List Doc)) :=
  if respFalsy resp then Except.ok (some [])
  else Except.map some (buildRetrievedDocs (resp.getD []))

/-- Embedding of `SearchEngineRetriever._retrieve_single` (lines 198-223):
return the `None` sentinel for the skip token; otherwise set
`self.use_local = True` (line 203), dispatch on it, and finish from the
server response. -/
def retrieve_single (net : Net) (cfg : Config) (q : String) (n : Nat) :
    Except PyError (Option (List Doc)) × List TraceEv :=
  if q = cfg.skipToken then (Except.ok none, [])
  else
    let use_local := true
    if use_local then
      match query_local_search_server net q n with
      | (Except.error e, t) => (Except.error e, t)
      | (Except.ok resp, t) => (finishResp (some resp), t)
    else
      let r := query_search_server net cfg.serverAddress q n
      (finishResp r.1, r.2)

/-- Embedding of the list comprehension of `SearchEngineRetriever.retrieve`
(line 229), processed left to right with the first uncaught exception
aborting the whole call. -/
def retrieveList (net : Net) (cfg : Config) (n : Nat) :
    List String → Except PyError (List (Option (List Doc))) × List TraceEv
  | [] => (Except.ok [], [])
  | q :: qs =>
    let r := retrieve_single net cfg q n
    match r.1 with
    | Except.error e => (Except.error e, r.2)
    | Except.ok d =>
      let rest := retrieveList net cfg n qs
      (Except.map (fun ds => d :: ds) rest.1, r.2 ++ rest.2)

/-- Embedding of `SearchEngineRetriever.retrieve` (lines 225-229). -/
def searchRetrieve (net : Net) (cfg : Config) (queries : List String) (n : Nat) :
    Except PyError (List (Option (List Doc))) × List TraceEv :=
  retrieveList net cfg n queries

/-- Embedding of `SearchEngineRetriever._validate_server` (lines 185-196):
a falsy address (absent or empty) raises `ValueError`; a `local_google`
address and an `http(s)://` address are returned unchanged; anything else is
prefixed with `http://`. -/
def validate_server (address : Option String) : Except PyError String :=
  match address with
  | none => Except.error PyError.valueError
  | some a =>
    if a = "" then Except.error PyError.valueError
    else if startswith a "local_google" then Except.ok a
    else if startswith a "http://" || startswith a "https://" then Except.ok a
    else Except.ok ("http://" ++ a)

/-- Embedding of `SearchEngineRetriever.__init__` (lines 101-107): validate the
address and set `use_local = True` (line 104; the `local_google` branch at
lines 105-107 sets it to `True` again). -/
def initRetriever (skipRetrievalToken : String) (searchServer : Option String) :
    Except PyError Config :=
  Except.map
    (fun addr =>
      { skipToken := skipRetrievalToken, serverAddress := addr, useLocal := true })
    (validate_server searchServer)

/-- Synthetic document of `SearchEngineRetrieverMock.retrieve` (lines 82-88). -/
def mockDoc (q : String) (idx : Nat) : Doc :=
  create_content_dict
    (ContentVal.str ("content " ++ toString idx ++ " for query \"" ++ q ++ "\""))
    ("url_" ++ toString idx) ("title_" ++ toString idx)

/-- Per-query body of `SearchEngineRetrieverMock.retrieve` (lines 77-88):
`None` for the skip token, otherwise one synthetic document per index below
`num_ret`, in index order. -/
def mockSingle (skipToken : String) (numRet : Nat) (q : String) : Option (List Doc) :=
  if q = skipToken then none
  else some ((List.range numRet).map (mockDoc q))

/-- Embedding of `SearchEngineRetrieverMock.retrieve` (lines 73-90): one
result appended per query, in input order. -/
def mockRetrieve (skipToken : String) (queries : List String) (numRet : Nat) :
    List (Option (List Doc)) :=
  queries.map (mockSingle skipToken numRet)

/-- Recogniser for the remote HTTP-POST dispatch event. -/
def isRemotePost : TraceEv → Bool
  | TraceEv.remotePost _ _ _ => true
  | _ => false

/-- Urls of the page-fetch events of a trace, in order. -/
def fetchedUrls : List TraceEv → List String
  | [] => []
  | TraceEv.fetchCall u :: t => u :: fetchedUrls t
  | _ :: t => fetchedUrls t

/-- A content value that is a list of non-empty, strip-fixed segments. -/
def isGoodSeg (s : String) : Bool := (!(s == "")) && (pyStrip s == s)

/-- Content shape produced by the search backend: a list of sentence segments,
each non-empty and already stripped. -/
def goodContent : ContentVal → Bool
  | ContentVal.strList l => l.all isGoodSeg
  | ContentVal.str _ => false

/-- Content shape produced by the mock backend: one non-empty string. -/
def nonemptyStrContent : ContentVal → Bool
  | ContentVal.str s => !(s == "")
  | ContentVal.strList _ => false

/-- A response item whose `content` key is absent. -/
def contentIsNone (it : RespItem) : Bool := it.content.isNone

/-- Whether some item of the list lacks the `content` key. -/
def hasMissingContent (items : List RespItem) : Bool := items.any contentIsNone

/-! Lemmas about the `str.strip` model. -/

theorem dropWhile_idem (p : Char → Bool) (l : List Char) :
    List.dropWhile p (List.dropWhile p l) = List.dropWhile p l := by
  induction l with
  | nil => rfl
  | cons a t ih =>
    by_cases h : p a
    · simp [List.dropWhile_cons, h, ih]
    · simp [List.dropWhile_cons, h]

theorem dropWhile_eq_self_of_front (p : Char → Bool) (l m : List Char)
    (hm : List.dropWhile p m = m) (hpre : ∃ u, l ++ u = m) :
    List.dropWhile p l = l := by
  cases l with
  | nil => rfl
  | cons c l2 =>
    obtain ⟨u, hu⟩ := hpre
    cases m with
    | nil => simp at hu
    | cons d m2 =>
      have hc : c = d := by
        have h2 := hu
        simp only [List.cons_append, List.cons.injEq] at h2
        exact h2.1
      have hd : p d = false := by
        by_contra hpd
        rw [Bool.not_eq_false] at hpd
        rw [List.dropWhile_cons, if_pos hpd] at hm
        have hlen := List.Sublist.length_le (List.dropWhile_sublist (l := m2) p)
        rw [hm] at hlen
        simp only [List.length_cons] at hlen
        omega
      rw [List.dropWhile_cons, hc, hd]
      simp

theorem stripChars_idem (l : List Char) : stripChars (stripChars l) = stripChars l := by
  have hmfix : (l.dropWhile isPySpace).dropWhile isPySpace = l.dropWhile isPySpace :=
    dropWhile_idem _ _
  have hrrev : (stripChars l).reverse = (l.dropWhile isPySpace).reverse.dropWhile isPySpace := by
    unfold stripChars
    rw [List.reverse_reverse]
  have hpre : ∃ u, stripChars l ++ u = l.dropWhile isPySpace := by
    obtain ⟨t, ht⟩ :=
      List.dropWhile_suffix (l := (l.dropWhile isPySpace).reverse) isPySpace
    refine ⟨t.reverse, ?_⟩
    have h2 := congrArg List.reverse ht
    simp only [List.reverse_append, List.reverse_reverse] at h2
    rw [← hrrev, List.reverse_reverse] at h2
    exact h2
  have hfix : List.dropWhile isPySpace (stripChars l) = stripChars l :=
    dropWhile_eq_self_of_front isPySpace (stripChars l) (l.dropWhile isPySpace) hmfix hpre
  show ((List.dropWhile isPySpace (stripChars l)).reverse.dropWhile isPySpace).reverse
      = stripChars l
  rw [hfix, hrrev, dropWhile_idem, ← hrrev, List.reverse_reverse]

theorem pyStrip_idem (s : String) : pyStrip (pyStrip s) = pyStrip s := by
  show String.mk (stripChars (String.mk (stripChars s.data)).data) = _
  rw [show (String.mk (stripChars s.data)).data = stripChars s.data from rfl,
    stripChars_idem]
  rfl

theorem keepSentence_good (s e : String) (h : keepSentence s = some e) :
    isGoodSeg e = true := by
  unfold keepSentence at h
  by_cases hc : s ≠ "" ∧ pyStrip s ≠ ""
  · rw [if_pos hc] at h
    have he : e = pyStrip s := by
      injection h with h2
      exact h2.symm
    subst he
    simp [isGoodSeg, pyStrip_idem, hc.2]
  · rw [if_neg hc] at h
    cases h

theorem splitSentences_good (c e : String) (he : e ∈ splitSentences c) :
    isGoodSeg e = true := by
  unfold splitSentences at he
  obtain ⟨s, _, hks⟩ := List.mem_filterMap.mp he
  exact keepSentence_good s e hks

/-! Lemmas about the UTF-8 codec model. -/

theorem decodeFrom_cont (bs : List Nat) :
    (match bs with
     | [] => ([] : List (Option Char))
     | b2 :: bs2 => decodeFrom b2 bs2) = utf8Decode bs := by
  cases bs <;> rfl

theorem charValid (c : Char) :
    c.toNat < 0xD800 ∨ (0xDFFF < c.toNat ∧ c.toNat < 0x110000) := by
  have h := c.valid
  simpa [UInt32.isValidChar, Nat.isValidChar, Char.toNat] using h

theorem decode_encodeChar (c : Char) (rest : List Nat) :
    utf8Decode (utf8EncodeChar c ++ rest) = some c :: utf8Decode rest := by
  have hv := charValid c
  have hofn : Char.ofNat c.toNat = c := Char.ofNat_toNat c
  rcases Nat.lt_or_ge c.toNat 0x80 with h1 | h1
  · rw [show utf8EncodeChar c = [c.toNat] from by rw [utf8EncodeChar, if_pos h1]]
    show decodeFrom c.toNat rest = _
    rw [decodeFrom.eq_def, if_pos h1, hofn, decodeFrom_cont]
  · rcases Nat.lt_or_ge c.toNat 0x800 with h2 | h2
    · rw [show utf8EncodeChar c = [0xC0 + c.toNat / 0x40, 0x80 + c.toNat % 0x40] from by
        rw [utf8EncodeChar, if_neg (by omega), if_pos h2]]
      show decodeFrom (0xC0 + c.toNat / 0x40) ((0x80 + c.toNat % 0x40) :: rest) = _
      rw [decodeFrom.eq_def, if_neg (by omega), if_pos (by omega)]
      simp only []
      rw [if_pos (by omega)]
      rw [show (0xC0 + c.toNat / 0x40 - 0xC0) * 0x40 + (0x80 + c.toNat % 0x40 - 0x80)
          = c.toNat from by omega, hofn, decodeFrom_cont]
    · rcases Nat.lt_or_ge c.toNat 0x10000 with h3 | h3
      · rw [show utf8EncodeChar c =
            [0xE0 + c.toNat / 0x1000, 0x80 + c.toNat / 0x40 % 0x40,
              0x80 + c.toNat % 0x40] from by
          rw [utf8EncodeChar, if_neg (by omega), if_neg (by omega), if_pos h3]]
        show decodeFrom (0xE0 + c.toNat / 0x1000)
            ((0x80 + c.toNat / 0x40 % 0x40) :: (0x80 + c.toNat % 0x40) :: rest) = _
        rw [decodeFrom.eq_def, if_neg (by omega), if_neg (by omega), if_pos (by omega)]
        simp only []
        rw [if_pos (by split_ifs <;> omega)]
        rw [if_pos (by omega)]
        rw [show (0xE0 + c.toNat / 0x1000 - 0xE0) * 0x1000 +
            (0x80 + c.toNat / 0x40 % 0x40 - 0x80) * 0x40 + (0x80 + c.toNat % 0x40 - 0x80)
            = c.toNat from by omega, hofn, decodeFrom_cont]
      · rw [show utf8EncodeChar c =
            [0xF0 + c.toNat / 0x40000, 0x80 + c.toNat / 0x1000 % 0x40,
              0x80 + c.toNat / 0x40 % 0x40, 0x80 + c.toNat % 0x40] from by
          rw [utf8EncodeChar, if_neg (by omega), if_neg (by omega), if_neg (by omega)]]
        show decodeFrom (0xF0 + c.toNat / 0x40000)
            ((0x80 + c.toNat / 0x1000 % 0x40) :: (0x80 + c.toNat / 0x40 % 0x40) ::
              (0x80 + c.toNat % 0x40) :: rest) = _
        rw [decodeFrom.eq_def, if_neg (by omega), if_neg (by omega), if_neg (by omega),
          if_pos (by omega)]
        simp only []
        rw [if_pos (by split_ifs <;> omega)]
        rw [if_pos (by omega)]
        rw [if_pos (by omega)]
        rw [show (0xF0 + c.toNat / 0x40000 - 0xF0) * 0x40000 +
            (0x80 + c.toNat / 0x1000 % 0x40 - 0x80) * 0x1000 +
            (0x80 + c.toNat / 0x40 % 0x40 - 0x80) * 0x40 + (0x80 + c.toNat % 0x40 - 0x80)
            = c.toNat from by omega, hofn, decodeFrom_cont]

theorem decode_encodeChars (l : List Char) (rest : List Nat) :
    utf8Decode (encodeChars l ++ rest) = l.map some ++ utf8Decode rest := by
  induction l with
  | nil => simp [encodeChars]
  | cons c cs ih =>
    rw [encodeChars, List.append_assoc, decode_encodeChar, ih]
    simp

theorem filterMap_id_map_some (l : List Char) :
    List.filterMap id (l.map some) = l := by
  induction l with
  | nil => rfl
  | cons c cs ih => simp [ih]

theorem utf8Decode_invalidByte (bs : List Nat) :
    utf8Decode (0xFF :: bs) = none :: utf8Decode bs := by
  show decodeFrom 0xFF bs = _
  rw [decodeFrom.eq_def, if_neg (by omega), if_neg (by omega), if_neg (by omega),
    if_neg (by omega), decodeFrom_cont]

theorem pyDecode_roundtrip (s : String) :
    pyDecodeUtf8Ignore (pyEncodeUtf8 s) = s := by
  show String.mk ((utf8Decode (encodeChars s.data)).filterMap id) = s
  rw [← List.append_nil (encodeChars s.data), decode_encodeChars,
    show utf8Decode [] = [] from rfl, List.append_nil, filterMap_id_map_some]

theorem pyDecode_drop (s t : String) :
    pyDecodeUtf8Ignore (pyEncodeUtf8 s ++ 0xFF :: pyEncodeUtf8 t) = s ++ t := by
  show String.mk
      ((utf8Decode (encodeChars s.data ++ 0xFF :: encodeChars t.data)).filterMap id)
      = s ++ t
  rw [decode_encodeChars, utf8Decode_invalidByte,
    ← List.append_nil (encodeChars t.data), decode_encodeChars,
    show utf8Decode [] = [] from rfl, List.append_nil]
  simp only [List.filterMap_append, filterMap_id_map_some]
  rw [show List.filterMap id (none :: t.data.map some)
      = List.filterMap id (t.data.map some) from by simp, filterMap_id_map_some]
  rfl

/-! Lemmas about the url-fetch loop of `_query_local_search_server`. -/

theorem queryLoop_ok (net : Net) (n : Nat) (urls : List String) (acc : List RespItem)
    (hacc : acc.length ≤ n) (l : List RespItem)
    (hok : (queryLoop net n urls acc).1 = Except.ok l) :
    l = (acc ++ urls.filterMap (fetchSuccess net)).take n := by
  induction urls generalizing acc with
  | nil =>
    simp only [queryLoop] at hok
    injection hok with hok
    subst hok
    rw [List.filterMap_nil, List.append_nil, List.take_of_length_le hacc]
  | cons url rest ih =>
    simp only [queryLoop] at hok
    by_cases hlen : n ≤ acc.length
    · rw [if_pos hlen] at hok
      injection hok with hok
      subst hok
      have heq : acc.length = n := Nat.le_antisymm hacc hlen
      rw [List.take_append_eq_append_take, heq, Nat.sub_self, List.take_zero,
        List.append_nil, List.take_of_length_le (by omega)]
    · rw [if_neg hlen] at hok
      cases hgp : get_and_parse net url with
      | error e => rw [hgp] at hok; simp at hok
      | ok o =>
        cases o with
        | none =>
          rw [hgp] at hok
          simp only [] at hok
          have hfs : fetchSuccess net url = none := by simp [fetchSuccess, hgp]
          rw [List.filterMap_cons, hfs]
          exact ih acc hacc hok
        | some d =>
          rw [hgp] at hok
          simp only [] at hok
          have hfs : fetchSuccess net url = some d := by simp [fetchSuccess, hgp]
          rw [List.filterMap_cons, hfs]
          have h2 := ih (acc ++ [d]) (by simp; omega) hok
          rw [h2, List.append_assoc]
          rfl

theorem queryLoop_trace_fetch (net : Net) (n : Nat) (urls : List String)
    (acc : List RespItem) (ev : TraceEv) (hev : ev ∈ (queryLoop net n urls acc).2) :
    ∃ u, ev = TraceEv.fetchCall u := by
  induction urls generalizing acc with
  | nil => simp [queryLoop] at hev
  | cons url rest ih =>
    simp only [queryLoop] at hev
    by_cases hlen : n ≤ acc.length
    · rw [if_pos hlen] at hev
      simp at hev
    · rw [if_neg hlen] at hev
      cases hgp : get_and_parse net url with
      | error e =>
        rw [hgp] at hev
        simp at hev
        exact ⟨url, hev⟩
      | ok o =>
        cases o with
        | none =>
          rw [hgp] at hev
          simp only [List.mem_cons] at hev
          rcases hev with hev | hev
          · exact ⟨url, hev⟩
          · exact ih acc hev
        | some d =>
          rw [hgp] at hev
          simp only [List.mem_cons] at hev
          rcases hev with hev | hev
          · exact ⟨url, hev⟩
          · exact ih (acc ++ [d]) hev

theorem queryLoop_fetched_front (net : Net) (n : Nat) (urls : List String)
    (acc : List RespItem) :
    ∃ u, fetchedUrls (queryLoop net n urls acc).2 ++ u = urls := by
  induction urls generalizing acc with
  | nil => exact ⟨[], rfl⟩
  | cons url rest ih =>
    simp only [queryLoop]
    by_cases hlen : n ≤ acc.length
    · rw [if_pos hlen]
      exact ⟨url :: rest, rfl⟩
    · rw [if_neg hlen]
      cases hgp : get_and_parse net url with
      | error e => exact ⟨rest, rfl⟩
      | ok o =>
        cases o with
        | none =>
          obtain ⟨u, hu⟩ := ih acc
          exact ⟨u, by simp [fetchedUrls, hu]⟩
        | some d =>
          obtain ⟨u, hu⟩ := ih (acc ++ [d])
          exact ⟨u, by simp [fetchedUrls, hu]⟩

theorem queryLoop_stop (net : Net) (n : Nat) (urls : List String) (acc : List RespItem)
    (i : Nat) (hi : i < (fetchedUrls (queryLoop net n urls acc).2).length) :
    acc.length +
      (((fetchedUrls (queryLoop net n urls acc).2).take i).filterMap
        (fetchSuccess net)).length < n := by
  induction urls generalizing acc i with
  | nil => simp [queryLoop, fetchedUrls] at hi
  | cons url rest ih =>
    simp only [queryLoop] at hi ⊢
    by_cases hlen : n ≤ acc.length
    · rw [if_pos hlen] at hi
      simp [fetchedUrls] at hi
    · rw [if_neg hlen] at hi ⊢
      cases hgp : get_and_parse net url with
      | error e =>
        rw [hgp] at hi
        dsimp only [] at hi ⊢
        simp only [fetchedUrls, List.length_cons, List.length_nil] at hi
        have hi0 : i = 0 := by omega
        subst hi0
        simpa [fetchedUrls] using Nat.lt_of_not_le hlen
      | ok o =>
        cases o with
        | none =>
          rw [hgp] at hi
          dsimp only [] at hi ⊢
          simp only [fetchedUrls, List.length_cons] at hi
          cases i with
          | zero => simpa using Nat.lt_of_not_le hlen
          | succ j =>
            have hfs : fetchSuccess net url = none := by simp [fetchSuccess, hgp]
            simp only [fetchedUrls, List.take_succ_cons, List.filterMap_cons, hfs]
            exact ih acc j (by omega)
        | some d =>
          rw [hgp] at hi
          dsimp only [] at hi ⊢
          simp only [fetchedUrls, List.length_cons] at hi
          cases i with
          | zero => simpa using Nat.lt_of_not_le hlen
          | succ j =>
            have hfs : fetchSuccess net url = some d := by simp [fetchSuccess, hgp]
            simp only [fetchedUrls, List.take_succ_cons, List.filterMap_cons, hfs,
              List.length_cons]
            have h2 := ih (acc ++ [d]) j (by omega)
            simp only [List.length_append, List.length_cons, List.length_nil] at h2
            omega

/-! Lemmas about the per-query batch loop of `retrieve`. -/

theorem retrieveList_ok (net : Net) (cfg : Config) (n : Nat) (qs : List String)
    (rs : List (Option (List Doc)))
    (hok : (retrieveList net cfg n qs).1 = Except.ok rs) :
    rs.length = qs.length ∧
      ∀ (i : Nat) (q : String), qs[i]? = some q →
        rs[i]? = Except.toOption (retrieve_single net cfg q n).1 := by
  induction qs generalizing rs with
  | nil =>
    simp only [retrieveList] at hok
    injection hok with hok
    subst hok
    exact ⟨rfl, by intro i q hq; simp at hq⟩
  | cons q qs2 ih =>
    simp only [retrieveList] at hok
    cases hr : (retrieve_single net cfg q n).1 with
    | error e => rw [hr] at hok; simp at hok
    | ok d =>
      rw [hr] at hok
      dsimp only [] at hok
      cases hrest : (retrieveList net cfg n qs2).1 with
      | error e => rw [hrest] at hok; simp [Except.map] at hok
      | ok rs2 =>
        rw [hrest] at hok
        simp only [Except.map] at hok
        injection hok with hok
        subst hok
        obtain ⟨hlen, halign⟩ := ih rs2 hrest
        constructor
        · simp [hlen]
        · intro i qq hq
          cases i with
          | zero =>
            simp only [List.getElem?_cons_zero] at hq ⊢
            injection hq with hq
            subst hq
            rw [hr]
            rfl
          | succ j =>
            simp only [List.getElem?_cons_succ] at hq ⊢
            exact halign j qq hq

theorem retrieveList_error (net : Net) (cfg : Config) (n : Nat) (qs : List String)
    (q : String) (hq : q ∈ qs) (e : PyError)
    (he : (retrieve_single net cfg q n).1 = Except.error e) :
    ∃ e2, (retrieveList net cfg n qs).1 = Except.error e2 := by
  induction qs with
  | nil => simp at hq
  | cons a qs2 ih =>
    cases ha : (retrieve_single net cfg a n).1 with
    | error e3 => exact ⟨e3, by simp [retrieveList, ha]⟩
    | ok d =>
      rcases List.mem_cons.mp hq with hqa | hq2
      · subst hqa
        rw [he] at ha
        simp at ha
      · obtain ⟨e2, he2⟩ := ih hq2
        exact ⟨e2, by simp [retrieveList, ha, he2, Except.map]⟩

/-! Lemmas about the response-assembly loop of `_retrieve_single`. -/

theorem buildDocs_keyError (items : List RespItem) (h : hasMissingContent items = true) :
    buildRetrievedDocs items = Except.error PyError.keyError := by
  induction items with
  | nil => simp [hasMissingContent] at h
  | cons it rest ih =>
    cases hc : it.content with
    | none => simp [buildRetrievedDocs, hc]
    | some c =>
      have h2 : hasMissingContent rest = true := by
        simp only [hasMissingContent, List.any_cons, contentIsNone, hc,
          Option.isNone_some, Bool.false_or] at h
        exact h
      simp [buildRetrievedDocs, hc, ih h2, Except.map]

theorem buildDocs_ok (items : List RespItem) (docs : List Doc)
    (hok : buildRetrievedDocs items = Except.ok docs) :
    docs.length = items.length ∧
      ∀ (i : Nat) (it : RespItem), items[i]? = some it →
        docs[i]? = Option.map (docOfItem it) it.content := by
  induction items generalizing docs with
  | nil =>
    simp only [buildRetrievedDocs] at hok
    injection hok with hok
    subst hok
    exact ⟨rfl, by intro i it h; simp at h⟩
  | cons it rest ih =>
    simp only [buildRetrievedDocs] at hok
    cases hc : it.content with
    | none => rw [hc] at hok; simp at hok
    | some c =>
      rw [hc] at hok
      dsimp only [] at hok
      cases hb : buildRetrievedDocs rest with
      | error e => rw [hb] at hok; simp [Except.map] at hok
      | ok ds2 =>
        rw [hb] at hok
        simp only [Except.map] at hok
        injection hok with hok
        subst hok
        obtain ⟨hlen, halign⟩ := ih ds2 hb
        refine ⟨by simp [hlen], ?_⟩
        intro i it2 hit
        cases i with
        | zero =>
          simp only [List.getElem?_cons_zero] at hit ⊢
          injection hit with hit
          subst hit
          rw [hc]
          rfl
        | succ j =>
          simp only [List.getElem?_cons_succ] at hit ⊢
          exact halign j it2 hit

theorem buildDocs_good (items : List RespItem) (docs : List Doc)
    (hok : buildRetrievedDocs items = Except.ok docs) (d : Doc) (hd : d ∈ docs) :
    goodContent d.content = true := by
  induction items generalizing docs with
  | nil =>
    simp only [buildRetrievedDocs] at hok
    injection hok with hok
    subst hok
    simp at hd
  | cons it rest ih =>
    simp only [buildRetrievedDocs] at hok
    cases hc : it.content with
    | none => rw [hc] at hok; simp at hok
    | some c =>
      rw [hc] at hok
      dsimp only [] at hok
      cases hb : buildRetrievedDocs rest with
      | error e => rw [hb] at hok; simp [Except.map] at hok
      | ok ds2 =>
        rw [hb] at hok
        simp only [Except.map] at hok
        injection hok with hok
        subst hok
        rcases List.mem_cons.mp hd with hd1 | hd2
        · subst hd1
          simp only [docOfItem, create_content_dict, goodContent]
          rw [List.all_eq_true]
          intro s hs
          exact splitSentences_good c s hs
        · exact ih ds2 hb hd2

theorem finishResp_good (resp : Option (List RespItem)) (res : List Doc)
    (hok : finishResp resp = Except.ok (some res)) (d : Doc) (hd : d ∈ res) :
    goodContent d.content = true := by
  unfold finishResp at hok
  by_cases hf : respFalsy resp = true
  · rw [if_pos hf] at hok
    injection hok with hok
    injection hok with hok
    subst hok
    simp at hd
  · rw [if_neg hf] at hok
    cases hb : buildRetrievedDocs (resp.getD []) with
    | error e => rw [hb] at hok; simp [Except.map] at hok
    | ok ds =>
      rw [hb] at hok
      simp only [Except.map] at hok
      injection hok with hok
      injection hok with hok
      subst hok
      exact buildDocs_good _ ds hb d hd

theorem retrieve_single_skip (net : Net) (cfg : Config) (n : Nat) :
    retrieve_single net cfg cfg.skipToken n = (Except.ok none, []) := by
  simp [retrieve_single]

theorem retrieve_single_good (net : Net) (cfg : Config) (q : String) (n : Nat)
    (res : List Doc) (hok : (retrieve_single net cfg q n).1 = Except.ok (some res))
    (d : Doc) (hd : d ∈ res) : goodContent d.content = true := by
  unfold retrieve_single at hok
  by_cases hq : q = cfg.skipToken
  · rw [if_pos hq] at hok
    simp at hok
  · rw [if_neg hq] at hok
    dsimp only [] at hok
    rcases hql : query_local_search_server net q n with ⟨r1, t⟩
    rw [hql] at hok
    cases r1 with
    | error e =>
      dsimp only [] at hok
      simp at hok
    | ok resp =>
      dsimp only [] at hok
      exact finishResp_good _ _ hok d hd

theorem retrieve_single_trace (net : Net) (cfg : Config) (q : String) (n : Nat)
    (hq : q ≠ cfg.skipToken) :
    (retrieve_single net cfg q n).2
      = TraceEv.providerCall q n :: (queryLoop net n (net.search q n) []).2 := by
  unfold retrieve_single
  rw [if_neg hq]
  dsimp only []
  rcases hql : query_local_search_server net q n with ⟨r1, t⟩
  have ht : t = TraceEv.providerCall q n :: (queryLoop net n (net.search q n) []).2 := by
    have h2 := congrArg Prod.snd hql
    simp only [query_local_search_server] at h2
    exact h2.symm
  cases r1 with
  | error e => simpa using ht
  | ok resp => simpa using ht

theorem retrieveList_good (net : Net) (cfg : Config) (n : Nat) (qs : List String)
    (rs : List (Option (List Doc))) (hok : (retrieveList net cfg n qs).1 = Except.ok rs)
    (r : Option (List Doc)) (hr : r ∈ rs) (res : List Doc) (hres : r = some res)
    (d : Doc) (hd : d ∈ res) : goodContent d.content = true := by
  induction qs generalizing rs with
  | nil =>
    simp only [retrieveList] at hok
    injection hok with hok
    subst hok
    simp at hr
  | cons a qs2 ih =>
    simp only [retrieveList] at hok
    cases ha : (retrieve_single net cfg a n).1 with
    | error e => rw [ha] at hok; simp at hok
    | ok d0 =>
      rw [ha] at hok
      dsimp only [] at hok
      cases hrest : (retrieveList net cfg n qs2).1 with
      | error e => rw [hrest] at hok; simp [Except.map] at hok
      | ok rs2 =>
        rw [hrest] at hok
        simp only [Except.map] at hok
        injection hok with hok
        subst hok
        rcases List.mem_cons.mp hr with h1 | h2
        · subst h1
          subst hres
          exact retrieve_single_good net cfg a n res ha d hd
        · exact ih rs2 hrest h2

theorem queryLoop_zero (net : Net) (urls : List String) :
    queryLoop net 0 urls [] = (Except.ok [], []) := by
  cases urls with
  | nil => rfl
  | cons u rest => simp [queryLoop]

theorem retrieve_single_zero (net : Net) (cfg : Config) (q : String)
    (hq : q ≠ cfg.skipToken) :
    retrieve_single net cfg q 0 = (Except.ok (some []), [TraceEv.providerCall q 0]) := by
  unfold retrieve_single
  rw [if_neg hq]
  dsimp only []
  rw [show query_local_search_server net q 0
      = (Except.ok [], [TraceEv.providerCall q 0]) from by
    unfold query_local_search_server
    dsimp only []
    rw [queryLoop_zero]
    rfl]
  rfl

theorem retrieve_single_cfg_independent (net : Net) (tok a a2 : String) (b b2 : Bool)
    (q : String) (n : Nat) :
    retrieve_single net { skipToken := tok, serverAddress := a, useLocal := b } q n
      = retrieve_single net { skipToken := tok, serverAddress := a2, useLocal := b2 } q n :=
  rfl

theorem retrieve_single_no_remote (net : Net) (cfg : Config) (q : String) (n : Nat)
    (ev : TraceEv) (hev : ev ∈ (retrieve_single net cfg q n).2) :
    isRemotePost ev = false := by
  by_cases hq : q = cfg.skipToken
  · subst hq
    rw [retrieve_single_skip] at hev
    simp at hev
  · rw [retrieve_single_trace net cfg q n hq] at hev
    rcases List.mem_cons.mp hev with h1 | h2
    · subst h1
      rfl
    · obtain ⟨u, hu⟩ := queryLoop_trace_fetch net n (net.search q n) [] ev h2
      subst hu
      rfl

/-! Lemmas about the mock retriever. -/

theorem mockContent_ne (q : String) (idx : Nat) :
    "content " ++ toString idx ++ " for query \"" ++ q ++ "\"" ≠ "" := by
  intro h
  have h2 : ("content ".data ++ (toString idx).data ++ " for query \"".data
      ++ q.data ++ "\"".data) = ([] : List Char) := congrArg String.data h
  simp only [List.append_eq_nil] at h2
  exact absurd h2.1.1.1.1 (by decide)

theorem mockSingle_content (tok : String) (numRet : Nat) (q : String)
    (ds : List Doc) (hds : mockSingle tok numRet q = some ds) (d : Doc) (hd : d ∈ ds) :
    nonemptyStrContent d.content = true := by
  unfold mockSingle at hds
  by_cases hq : q = tok
  · rw [if_pos hq] at hds
    cases hds
  · rw [if_neg hq] at hds
    injection hds with hds
    subst hds
    obtain ⟨idx, _, hidx⟩ := List.mem_map.mp hd
    subst hidx
    simp only [mockDoc, create_content_dict, nonemptyStrContent, Bool.not_eq_true',
      beq_eq_false_iff_ne, ne_eq]
    exact mockContent_ne q idx

theorem mockRetrieve_align (tok : String) (qs : List String) (numRet : Nat) :
    (mockRetrieve tok qs numRet).length = qs.length ∧
      ∀ (i : Nat) (q : String), qs[i]? = some q →
        (mockRetrieve tok qs numRet)[i]? = some (mockSingle tok numRet q) := by
  constructor
  · simp [mockRetrieve]
  · intro i q hq
    unfold mockRetrieve
    rw [List.getElem?_map, hq]
    rfl

/-! Lemmas about server-address validation. -/

theorem not_local_of_http (s : String)
    (h : startswith s "http://" = true ∨ startswith s "https://" = true) :
    startswith s "local_google" = false := by
  unfold startswith at h ⊢
  cases hs : s.data with
  | nil =>
    rcases h with h | h <;> (rw [hs] at h; simp [List.isPrefixOf] at h)
  | cons c cs =>
    rw [hs] at h
    have hc : c = 'h' := by
      rcases h with h | h <;>
      · simp only [List.isPrefixOf, Bool.and_eq_true, beq_iff_eq] at h
        exact h.1.symm
    subst hc
    simp [List.isPrefixOf]

theorem http_ne_empty (s : String)
    (h : startswith s "http://" = true ∨ startswith s "https://" = true) :
    s ≠ "" := by
  intro hse
  subst hse
  rcases h with h | h <;> simp [startswith, List.isPrefixOf] at h

/-! Concrete oracles for witnesses and counterexamples. -/

/-- Oracles with empty search results and empty pages. -/
def testNet : Net where
  search := fun _ _ => []
  requestsGet := fun _ _ => some []
  soupTitle := fun _ => none
  html2textHandle := fun s => s
  postServer := fun _ _ _ => (200, none)

/-- Oracles where the provider returns five urls for the query "q" and the
second, guarded GET of "u2" fails (a benign per-url fetch failure). -/
def net5 : Net where
  search := fun q _ => if q = "q" then ["u1", "u2", "u3", "u4", "u5"] else []
  requestsGet := fun u i => if u = "u2" ∧ i = 1 then none else some [104, 105]
  soupTitle := fun _ => some "T"
  html2textHandle := fun s => s
  postServer := fun _ _ _ => (200, none)

/-- Oracles where every GET raises. -/
def failNet : Net where
  search := fun _ _ => ["http://bad.example"]
  requestsGet := fun _ _ => none
  soupTitle := fun _ => none
  html2textHandle := fun s => s
  postServer := fun _ _ _ => (200, none)

/-- Oracles where the first, unguarded GET succeeds and the second, guarded GET
raises. -/
def flakyNet : Net where
  search := fun _ _ => ["u"]
  requestsGet := fun _ i => if i = 0 then some [] else none
  soupTitle := fun _ => none
  html2textHandle := fun s => s
  postServer := fun _ _ _ => (200, none)

/-- Oracles producing one url whose page decodes to "hi". -/
def witNet : Net where
  search := fun _ _ => ["u"]
  requestsGet := fun _ _ => some [104, 105]
  soupTitle := fun _ => some "T"
  html2textHandle := fun s => s
  postServer := fun _ _ _ => (200, none)

/-- A configuration with skip token "skip". -/
def cfg0 : Config where
  skipToken := "skip"
  serverAddress := "local_google"
  useLocal := true

/-! Claim theorems. -/

/-- C1: for every query batch, `SearchEngineRetriever.retrieve` (whenever it
returns a batch) returns one entry per input query, the entry at position `i`
being the single-query result of the query at position `i`; the mock's
`retrieve` does the same unconditionally.  Input order is preserved. -/
theorem c1_retrieve_alignment (net : Net) (cfg : Config) (tok : String)
    (qs : List String) (n : Nat) :
    (∀ rs, (searchRetrieve net cfg qs n).1 = Except.ok rs →
      rs.length = qs.length ∧
        ∀ (i : Nat) (q : String), qs[i]? = some q →
          rs[i]? = Except.toOption (retrieve_single net cfg q n).1) ∧
    ((mockRetrieve tok qs n).length = qs.length ∧
      ∀ (i : Nat) (q : String), qs[i]? = some q →
        (mockRetrieve tok qs n)[i]? = some (mockSingle tok n q)) := by
  constructor
  · intro rs hok
    exact retrieveList_ok net cfg n qs rs hok
  · exact mockRetrieve_align tok qs n

theorem c1_retrieve_alignment_witness :
    (searchRetrieve testNet cfg0 ["a"] 5).1 = Except.ok [some []] ∧
    (["a"] : List String)[0]? = some "a" ∧
    ([some []] : List (Option (List Doc))).length = (["a"] : List String).length ∧
    ([some []] : List (Option (List Doc)))[0]?
      = Except.toOption (retrieve_single testNet cfg0 "a" 5).1 ∧
    (mockRetrieve "skip" ["a"] 5).length = (["a"] : List String).length ∧
    (mockRetrieve "skip" ["a"] 5)[0]? = some (mockSingle "skip" 5 "a") :=
  ⟨by decide, by decide,
    ((c1_retrieve_alignment testNet cfg0 "skip" ["a"] 5).1 [some []] (by decide)).1,
    ((c1_retrieve_alignment testNet cfg0 "skip" ["a"] 5).1 [some []] (by decide)).2
      0 "a" (by decide),
    (c1_retrieve_alignment testNet cfg0 "skip" ["a"] 5).2.1,
    (c1_retrieve_alignment testNet cfg0 "skip" ["a"] 5).2.2 0 "a" (by decide)⟩

/-- C2 (code bug): a transport failure at the first, unguarded
`requests.get(url)` of `_get_and_parse` (line 123) raises
`requests`' exception past the function instead of returning the `None`
failure marker, and the exception aborts the enclosing query and the whole
`retrieve` call; only a failure at the second, guarded call (line 125)
produces the marker. -/
theorem c2_unguarded_get_raises :
    get_and_parse failNet "http://bad.example" = Except.error PyError.requestsException ∧
    (query_local_search_server failNet "q" 3).1
      = Except.error PyError.requestsException ∧
    (searchRetrieve failNet cfg0 ["q"] 3).1
      = Except.error PyError.requestsException ∧
    get_and_parse flakyNet "u" = Except.ok none := by
  refine ⟨by decide, by decide, by decide, by decide⟩

/-- C3: a query equal to the configured skip token yields the `None` sentinel
at its position, for any `num_ret`, with an empty external-call trace (no
provider lookup and no fetch); the mock behaves identically. -/
theorem c3_skip_token (net : Net) (cfg : Config) (n : Nat) (qs : List String)
    (rs : List (Option (List Doc))) (i : Nat) :
    retrieve_single net cfg cfg.skipToken n = (Except.ok none, []) ∧
    mockSingle cfg.skipToken n cfg.skipToken = none ∧
    ((searchRetrieve net cfg qs n).1 = Except.ok rs →
      qs[i]? = some cfg.skipToken → rs[i]? = some none) := by
  refine ⟨retrieve_single_skip net cfg n, by simp [mockSingle], ?_⟩
  intro hok hq
  have h2 := (retrieveList_ok net cfg n qs rs hok).2 i cfg.skipToken hq
  have h3 : (retrieve_single net cfg cfg.skipToken n).1 = Except.ok none := by
    rw [retrieve_single_skip]
  rw [h3] at h2
  exact h2

theorem c3_skip_token_witness :
    (searchRetrieve testNet cfg0 ["skip"] 7).1 = Except.ok [none] ∧
    (["skip"] : List String)[0]? = some cfg0.skipToken ∧
    retrieve_single testNet cfg0 cfg0.skipToken 7 = (Except.ok none, []) ∧
    mockSingle cfg0.skipToken 7 cfg0.skipToken = none ∧
    ([none] : List (Option (List Doc)))[0]? = some none :=
  ⟨by decide, by decide,
    (c3_skip_token testNet cfg0 7 ["skip"] [none] 0).1,
    (c3_skip_token testNet cfg0 7 ["skip"] [none] 0).2.1,
    (c3_skip_token testNet cfg0 7 ["skip"] [none] 0).2.2 (by decide) (by decide)⟩

/-- C4 counterexample: with `num_ret = 0` a non-skip query does return the
empty document list and performs no fetch, but the external search provider
is still contacted: the provider-call event is in the trace, refuting
"without contacting the external search provider". -/
theorem c4_counterexample :
    (retrieve_single testNet cfg0 "a" 0).1 = Except.ok (some []) ∧
    (retrieve_single testNet cfg0 "a" 0).2 = [TraceEv.providerCall "a" 0] ∧
    TraceEv.providerCall "a" 0 ∈ (retrieve_single testNet cfg0 "a" 0).2 := by
  refine ⟨by decide, by decide, by decide⟩

/-- C4 (amended): for `num_ret = 0`, every non-skip query returns the empty
document list and no page fetch is attempted, but the search-provider lookup
is still issued (with count 0): the trace is exactly one provider call. -/
theorem c4_zero_numret (net : Net) (cfg : Config) (q : String)
    (hq : q ≠ cfg.skipToken) :
    (retrieve_single net cfg q 0).1 = Except.ok (some []) ∧
    (retrieve_single net cfg q 0).2 = [TraceEv.providerCall q 0] ∧
    fetchedUrls (retrieve_single net cfg q 0).2 = [] := by
  have h := retrieve_single_zero net cfg q hq
  refine ⟨by rw [h], by rw [h], by rw [h]; rfl⟩

theorem c4_zero_numret_witness :
    ("a" : String) ≠ cfg0.skipToken ∧
    ((retrieve_single testNet cfg0 "a" 0).1 = Except.ok (some []) ∧
      (retrieve_single testNet cfg0 "a" 0).2 = [TraceEv.providerCall "a" 0] ∧
      fetchedUrls (retrieve_single testNet cfg0 "a" 0).2 = []) :=
  ⟨by decide, c4_zero_numret testNet cfg0 "a" (by decide)⟩

/-- C5: `_query_local_search_server` returns (when it returns) at most `n`
documents, namely the first `n` fetch successes of the provider's url list in
the provider's order with failed urls skipped; the fetched urls form a prefix
of the provider's list; and a url is only fetched while the number of
successes among the previously fetched urls is still below `n`. -/
theorem c5_query_runner (net : Net) (q : String) (n : Nat) :
    (∀ l, (query_local_search_server net q n).1 = Except.ok l →
      l.length ≤ n ∧ l = ((net.search q n).filterMap (fetchSuccess net)).take n) ∧
    (∃ u, fetchedUrls (query_local_search_server net q n).2 ++ u = net.search q n) ∧
    (∀ i : Nat, i < (fetchedUrls (query_local_search_server net q n).2).length →
      (((fetchedUrls (query_local_search_server net q n).2).take i).filterMap
        (fetchSuccess net)).length < n) := by
  refine ⟨?_, ?_, ?_⟩
  · intro l hok
    have h1 : (query_local_search_server net q n).1
        = Except.map (fun content => content.take n)
            (queryLoop net n (net.search q n) []).1 := rfl
    rw [h1] at hok
    cases hb : (queryLoop net n (net.search q n) []).1 with
    | error e => rw [hb] at hok; simp [Except.map] at hok
    | ok l0 =>
      rw [hb] at hok
      simp only [Except.map] at hok
      injection hok with hok
      subst hok
      have h2 := queryLoop_ok net n (net.search q n) [] (by simp) l0 hb
      refine ⟨List.length_take_le n l0, ?_⟩
      rw [h2]
      simp [List.take_take]
  · exact queryLoop_fetched_front net n (net.search q n) []
  · intro i hi
    have h3 := queryLoop_stop net n (net.search q n) [] i hi
    simpa using h3

theorem c5_query_runner_witness :
    ((query_local_search_server net5 "q" 3).1
        = Except.ok [{ url := some "u1", title := some "T", content := some "hi" },
            { url := some "u3", title := some "T", content := some "hi" },
            { url := some "u4", title := some "T", content := some "hi" }] ∧
      ([{ url := some "u1", title := some "T", content := some "hi" },
          { url := some "u3", title := some "T", content := some "hi" },
          { url := some "u4", title := some "T", content := some "hi" }]
          : List RespItem).length ≤ 3 ∧
      [({ url := some "u1", title := some "T", content := some "hi" } : RespItem),
          { url := some "u3", title := some "T", content := some "hi" },
          { url := some "u4", title := some "T", content := some "hi" }]
        = ((net5.search "q" 3).filterMap (fetchSuccess net5)).take 3) ∧
    fetchedUrls (query_local_search_server net5 "q" 3).2 = ["u1", "u2", "u3", "u4"] ∧
    2 < (fetchedUrls (query_local_search_server net5 "q" 3).2).length ∧
    (((fetchedUrls (query_local_search_server net5 "q" 3).2).take 2).filterMap
      (fetchSuccess net5)).length < 3 :=
  ⟨⟨by decide,
    ((c5_query_runner net5 "q" 3).1 _ (by decide)).1,
    ((c5_query_runner net5 "q" 3).1 _ (by decide)).2⟩,
   by decide, by decide,
   (c5_query_runner net5 "q" 3).2.2 2 (by decide)⟩

/-- C6 counterexample: a document on the mock backend's successful path has a
single string as its `content` value, not a sequence of non-empty trimmed
segments, so the two backends' records are not structurally identical. -/
theorem c6_counterexample :
    mockRetrieve "tok" ["hello"] 1
      = [some [create_content_dict
          (ContentVal.str "content 0 for query \"hello\"") "url_0" "title_0"]] ∧
    goodContent (create_content_dict
        (ContentVal.str "content 0 for query \"hello\"") "url_0" "title_0").content
      = false := by
  refine ⟨by decide, by decide⟩

/-- C6 (amended): every document on `SearchEngineRetriever`'s successful path
carries an ordered sequence of non-empty, strip-fixed segment strings as its
`content`, while every document of the mock backend carries a single
non-empty string instead. -/
theorem c6_content_shape (net : Net) (cfg : Config) (qs : List String) (n : Nat)
    (rs : List (Option (List Doc))) (r : Option (List Doc)) (res : List Doc) (d : Doc)
    (tok : String) (numRet : Nat) (q : String) (ds : List Doc) (d2 : Doc) :
    ((searchRetrieve net cfg qs n).1 = Except.ok rs → r ∈ rs → r = some res →
      d ∈ res → goodContent d.content = true) ∧
    (mockSingle tok numRet q = some ds → d2 ∈ ds →
      nonemptyStrContent d2.content = true) := by
  constructor
  · intro hok hr hres hd
    exact retrieveList_good net cfg n qs rs hok r hr res hres d hd
  · intro hds hd2
    exact mockSingle_content tok numRet q ds hds d2 hd2

theorem c6_content_shape_witness :
    ((searchRetrieve witNet cfg0 ["a"] 1).1
        = Except.ok [some [create_content_dict (ContentVal.strList ["hi"]) "u" "T"]] ∧
      goodContent (create_content_dict (ContentVal.strList ["hi"]) "u" "T").content
        = true) ∧
    (mockSingle "skip" 1 "hello"
        = some [create_content_dict
            (ContentVal.str "content 0 for query \"hello\"") "url_0" "title_0"] ∧
      nonemptyStrContent (create_content_dict
          (ContentVal.str "content 0 for query \"hello\"") "url_0" "title_0").content
        = true) :=
  ⟨⟨by decide,
    (c6_content_shape witNet cfg0 ["a"] 1
        [some [create_content_dict (ContentVal.strList ["hi"]) "u" "T"]]
        (some [create_content_dict (ContentVal.strList ["hi"]) "u" "T"])
        [create_content_dict (ContentVal.strList ["hi"]) "u" "T"]
        (create_content_dict (ContentVal.strList ["hi"]) "u" "T")
        "skip" 1 "hello" [] (create_content_dict (ContentVal.strList ["hi"]) "u" "T")).1
      (by decide) (by decide) rfl (by decide)⟩,
   ⟨by decide,
    (c6_content_shape witNet cfg0 ["a"] 1 [] none []
        (create_content_dict (ContentVal.str "content 0 for query \"hello\"")
          "url_0" "title_0")
        "skip" 1 "hello"
        [create_content_dict (ContentVal.str "content 0 for query \"hello\"")
          "url_0" "title_0"]
        (create_content_dict (ContentVal.str "content 0 for query \"hello\"")
          "url_0" "title_0")).2
      (by decide) (by decide)⟩⟩

/-- C7: for every constructed configuration (any validated address, any stored
`use_local` flag) and every non-skip query, dispatch never goes through the
remote HTTP-POST path: the trace contains no POST event and starts with the
local provider call, and the result is independent of the address and flag. -/
theorem c7_always_local (net : Net) (tok a a2 : String) (b b2 : Bool) (q : String)
    (n : Nat) (hq : q ≠ tok) :
    List.filter isRemotePost
        (retrieve_single net { skipToken := tok, serverAddress := a, useLocal := b } q n).2
      = [] ∧
    List.take 1
        (retrieve_single net { skipToken := tok, serverAddress := a, useLocal := b } q n).2
      = [TraceEv.providerCall q n] ∧
    retrieve_single net { skipToken := tok, serverAddress := a, useLocal := b } q n
      = retrieve_single net { skipToken := tok, serverAddress := a2, useLocal := b2 } q n := by
  refine ⟨?_, ?_, retrieve_single_cfg_independent net tok a a2 b b2 q n⟩
  · rw [List.filter_eq_nil_iff]
    intro ev hev
    simp [retrieve_single_no_remote net _ q n ev hev]
  · rw [retrieve_single_trace net _ q n hq]
    rfl

theorem c7_always_local_witness :
    ("a" : String) ≠ "skip" ∧
    (List.filter isRemotePost
        (retrieve_single testNet
          { skipToken := "skip", serverAddress := "http://srv", useLocal := false } "a" 2).2
      = [] ∧
    List.take 1
        (retrieve_single testNet
          { skipToken := "skip", serverAddress := "http://srv", useLocal := false } "a" 2).2
      = [TraceEv.providerCall "a" 2] ∧
    retrieve_single testNet
        { skipToken := "skip", serverAddress := "http://srv", useLocal := false } "a" 2
      = retrieve_single testNet
        { skipToken := "skip", serverAddress := "local_google", useLocal := true } "a" 2) :=
  ⟨by decide,
    c7_always_local testNet "skip" "http://srv" "local_google" false true "a" 2 (by decide)⟩

/-- C8: at construction, server-address validation raises `ValueError` exactly
for an absent or empty address; an `http://` or `https://` address is kept
as-is; any other non-empty address not starting with the local marker is
returned with an `http://` prefix. -/
theorem c8_validate_server (tok : String) (a : Option String) (s : String) :
    (validate_server a = Except.error PyError.valueError ↔ (a = none ∨ a = some "")) ∧
    (initRetriever tok a = Except.error PyError.valueError ↔ (a = none ∨ a = some "")) ∧
    ((startswith s "http://" = true ∨ startswith s "https://" = true) →
      validate_server (some s) = Except.ok s) ∧
    (s ≠ "" → startswith s "local_google" = false → startswith s "http://" = false →
      startswith s "https://" = false →
      validate_server (some s) = Except.ok ("http://" ++ s)) := by
  have hvs : ∀ (a2 : Option String),
      validate_server a2 = Except.error PyError.valueError ↔ (a2 = none ∨ a2 = some "") := by
    intro a2
    constructor
    · intro h
      cases a2 with
      | none => exact Or.inl rfl
      | some s2 =>
        by_cases hse : s2 = ""
        · exact Or.inr (by rw [hse])
        · exfalso
          unfold validate_server at h
          dsimp only [] at h
          rw [if_neg hse] at h
          by_cases hl : startswith s2 "local_google" = true
          · rw [if_pos hl] at h
            simp at h
          · rw [if_neg hl] at h
            by_cases hh : (startswith s2 "http://" || startswith s2 "https://") = true
            · rw [if_pos hh] at h
              simp at h
            · rw [if_neg hh] at h
              simp at h
    · intro h
      rcases h with h | h
      · rw [h]
        rfl
      · rw [h]
        rfl
  refine ⟨hvs a, ?_, ?_, ?_⟩
  · have hmap : ∀ (x : Except PyError String),
        Except.map (fun addr =>
            ({ skipToken := tok, serverAddress := addr, useLocal := true } : Config)) x
          = Except.error PyError.valueError ↔ x = Except.error PyError.valueError := by
      intro x
      cases x <;> simp [Except.map]
    unfold initRetriever
    rw [hmap]
    exact hvs a
  · intro h
    have hne := http_ne_empty s h
    have hloc := not_local_of_http s h
    unfold validate_server
    dsimp only []
    rw [if_neg hne, if_neg (by simp [hloc]), if_pos (by rcases h with h | h <;> simp [h])]
  · intro hne hloc hh1 hh2
    unfold validate_server
    dsimp only []
    rw [if_neg hne, if_neg (by simp [hloc]), if_neg (by simp [hh1, hh2])]

theorem c8_validate_server_witness :
    validate_server (some "") = Except.error PyError.valueError ∧
    validate_server none = Except.error PyError.valueError ∧
    initRetriever "tok" none = Except.error PyError.valueError ∧
    startswith "https://ex.com" "https://" = true ∧
    validate_server (some "https://ex.com") = Except.ok "https://ex.com" ∧
    ("example.com/search" : String) ≠ "" ∧
    startswith "example.com/search" "local_google" = false ∧
    validate_server (some "example.com/search") = Except.ok "http://example.com/search" :=
  ⟨(c8_validate_server "tok" (some "") "x").1.mpr (Or.inr rfl),
   (c8_validate_server "tok" none "x").1.mpr (Or.inl rfl),
   (c8_validate_server "tok" none "x").2.1.mpr (Or.inl rfl),
   by decide,
   (c8_validate_server "tok" (some "x") "https://ex.com").2.2.1 (Or.inr (by decide)),
   by decide, by decide,
   (c8_validate_server "tok" (some "x") "example.com/search").2.2.2
     (by decide) (by decide) (by decide) (by decide)⟩

/-- C9 counterexample: the source decodes page bytes with `errors="ignore"`,
which drops the undecodable byte 0xFF, whereas a decode that replaces
undecodable sequences yields U+FFFD; the two disagree on the input `[0xFF]`. -/
theorem c9_counterexample :
    pyDecodeUtf8Ignore [0xFF] = "" ∧ specDecodeReplace [0xFF] = "�" ∧
    pyDecodeUtf8Ignore [0xFF] ≠ specDecodeReplace [0xFF] := by
  refine ⟨by decide, by decide, by decide⟩

/-- C9 (amended): `_get_and_parse` decodes the fetched page bytes as UTF-8
with undecodable byte sequences dropped rather than the decode failing: the
decode is total, recovers every validly encoded string exactly, and an
undecodable byte inserted between two valid encodings is simply omitted. -/
theorem c9_decode_ignore (s t : String) :
    pyDecodeUtf8Ignore (pyEncodeUtf8 s) = s ∧
    pyDecodeUtf8Ignore (pyEncodeUtf8 s ++ 0xFF :: pyEncodeUtf8 t) = s ++ t :=
  ⟨pyDecode_roundtrip s, pyDecode_drop s t⟩

/-- C10: in the per-query assembly loop, an item lacking `url` or `title`
degrades to the empty string for that field, an item lacking `content` makes
the loop raise `KeyError`, and an uncaught exception in a single query aborts
the whole `retrieve` call. -/
theorem c10_assembly (items : List RespItem) (docs : List Doc) (it : RespItem)
    (c : String) (net : Net) (cfg : Config) (qs : List String) (n : Nat) (q : String)
    (e : PyError) :
    (hasMissingContent items = true →
      buildRetrievedDocs items = Except.error PyError.keyError) ∧
    (buildRetrievedDocs items = Except.ok docs →
      docs.length = items.length ∧
        ∀ (i : Nat) (it2 : RespItem), items[i]? = some it2 →
          docs[i]? = Option.map (docOfItem it2) it2.content) ∧
    ((docOfItem it c).url = it.url.getD "" ∧ (docOfItem it c).title = it.title.getD "") ∧
    (q ∈ qs → (retrieve_single net cfg q n).1 = Except.error e →
      ∃ e2, (searchRetrieve net cfg qs n).1 = Except.error e2) := by
  refine ⟨buildDocs_keyError items, buildDocs_ok items docs, ⟨rfl, rfl⟩, ?_⟩
  intro hq he
  exact retrieveList_error net cfg n qs q hq e he

theorem c10_assembly_witness :
    hasMissingContent [({ url := some "u", title := some "t", content := none }
      : RespItem)] = true ∧
    buildRetrievedDocs [({ url := some "u", title := some "t", content := none }
      : RespItem)] = Except.error PyError.keyError ∧
    buildRetrievedDocs [({ url := none, title := none, content := some "x" }
      : RespItem)] = Except.ok [docOfItem { url := none, title := none, content := some "x" } "x"] ∧
    ([docOfItem { url := none, title := none, content := some "x" } "x"] : List Doc).length
      = ([({ url := none, title := none, content := some "x" } : RespItem)]
          : List RespItem).length ∧
    (docOfItem { url := none, title := none, content := some "x" } "x").url = "" ∧
    (docOfItem { url := none, title := none, content := some "x" } "x").title = "" ∧
    "q" ∈ (["q"] : List String) ∧
    (retrieve_single failNet cfg0 "q" 3).1 = Except.error PyError.requestsException ∧
    (searchRetrieve failNet cfg0 ["q"] 3).1 = Except.error PyError.requestsException := by
  refine ⟨by decide, ?_, by decide, ?_, ?_, ?_, by decide, by decide, by decide⟩
  · exact (c10_assembly [{ url := some "u", title := some "t", content := none }] []
      { url := none, title := none, content := some "x" } "x" failNet cfg0 ["q"] 3 "q"
      PyError.requestsException).1 (by decide)
  · exact ((c10_assembly [{ url := none, title := none, content := some "x" }]
      [docOfItem { url := none, title := none, content := some "x" } "x"]
      { url := none, title := none, content := some "x" } "x" failNet cfg0 ["q"] 3 "q"
      PyError.requestsException).2.1 (by decide)).1
  · exact (c10_assembly [] []
      { url := none, title := none, content := some "x" } "x" failNet cfg0 ["q"] 3 "q"
      PyError.requestsException).2.2.1.1
  · exact (c10_assembly [] []
      { url := none, title := none, content := some "x" } "x" failNet cfg0 ["q"] 3 "q"
      PyError.requestsException).2.2.1.2

end RetrieveApi
